import Mathlib

/-!
# polymur-gateway — output distribution engine and startup wiring

A shallow embedding of the polymur-gateway metrics gateway.  The visible
source is `cmd/polymur-gateway/main.go` (startup glue); the distribution
engine itself (the `pool` and `output` packages) is not part of the visible
tree, so its operations are modelled from the specification and marked as
such in their doc comments.  The `main` startup sequence is embedded
directly from `main.go` as a trace of startup events.
-/

/-- A single metric line, written verbatim to a destination socket. -/
abbrev MetricLine := String

/-- Modelled from the spec: a `MetricBatch` is an ordered sequence of
metric-line strings produced by one upstream submission (in `main.go` the
inbound channel carries `[]*string`). -/
abbrev MetricBatch := List MetricLine

/-- Modelled from the spec: a Destination's connection state. -/
inductive ConnState
  | disconnected
  | connecting
  | connected
deriving DecidableEq, Repr

/-- Modelled from the spec: a `Destination` owns one downstream endpoint's
address, connection state, bounded FIFO outbound queue, and counters. -/
structure Destination where
  addr : String
  connState : ConnState
  queue : List MetricBatch
  queueCap : Nat
  accepted : Nat
  sent : Nat
  dropped : Nat
deriving DecidableEq, Repr

/-- Result of `Destination.Enqueue`. -/
inductive EnqueueResult
  | accepted
  | droppedQueueFull
deriving DecidableEq, Repr

/-- Modelled from the spec: `Destination.Enqueue` — non-blocking append to the
bounded outbound queue; on a full queue the incoming batch is dropped
(drop-newest) and the drop counter incremented. -/
def Destination.enqueue (d : Destination) (b : MetricBatch) :
    EnqueueResult × Destination :=
  if d.queue.length < d.queueCap then
    (.accepted, { d with queue := d.queue ++ [b], accepted := d.accepted + 1 })
  else
    (.droppedQueueFull, { d with dropped := d.dropped + 1 })

/-- Modelled from the spec: the `Pool` is the registry of all configured
Destinations; membership is fixed after startup. -/
abbrev Pool := List Destination

/-- The addresses of the pool's members (the pool's membership view). -/
def Pool.addrs (p : Pool) : List String :=
  p.map Destination.addr

/-- Modelled from the spec: a deterministic hash of a routing key (the actual
hash function lives in the unseen `output` package; any fixed deterministic
function is faithful to the contract). -/
def hashKey (k : String) : Nat :=
  k.foldl (fun a c => (a * 31 + c.toNat) % 4294967296) 5381

/-- Modelled from the spec: the distribution policy, fixed at startup. -/
inductive Policy
  | broadcast
  | hashRoute
deriving DecidableEq, Repr

/-- Modelled from the spec: Broadcast's target set is all Destinations in
the Pool. -/
def broadcastTargets (p : Pool) : List Destination := p

/-- Modelled from the spec: Hash-Route's chosen index — hash of the routing
key modulo the number of destinations. -/
def hashRouteIdx (k : String) (p : Pool) : Nat :=
  hashKey k % p.length

/-- Modelled from the spec: Hash-Route's target set — exactly one
Destination, resolved through `Pool.Lookup` at the hashed index. -/
def hashRouteTargets (k : String) (p : Pool) : List Destination :=
  match p[hashRouteIdx k p]? with
  | some d => [d]
  | none => []

/-- Modelled from the spec: the Distributor routes one batch under the
Broadcast policy — an independent copy of the batch is enqueued at every
Destination in the Pool. -/
def distributeBroadcast (b : MetricBatch) (p : Pool) : Pool :=
  p.map (fun d => (d.enqueue b).2)

/-- Modelled from the spec: the Distributor routes one batch under the
Hash-Route policy — the batch is enqueued only at the single hashed target. -/
def distributeHashRoute (k : String) (b : MetricBatch) (p : Pool) : Pool :=
  match p[hashRouteIdx k p]? with
  | some d => p.set (hashRouteIdx k p) (d.enqueue b).2
  | none => p

/-- Modelled from the spec: one Distributor routing step under the active
policy. -/
def distribute (pol : Policy) (k : String) (b : MetricBatch) (p : Pool) :
    Pool :=
  match pol with
  | .broadcast => distributeBroadcast b p
  | .hashRoute => distributeHashRoute k b p

/-! ## Per-destination delivery task -/

/-- Outcome of one network I/O attempt (dial or write), injected as a
schedule so that the delivery loop's reaction to failures is explicit. -/
inductive IoOutcome
  | ok
  | err
deriving DecidableEq, Repr

/-- Observable events of one Destination's delivery task. -/
inductive DeliveryEvent
  | dialed
  | backedOff
  | wrote (b : MetricBatch)
  | writeFailed (b : MetricBatch)
  | closedSocket
deriving DecidableEq, Repr

/-- Modelled from the spec: the per-Destination delivery task.  While
disconnected it dials; a failed dial waits out a backoff and retries.  Once
connected it dequeues the next batch and writes its lines; on a write error
it marks the Destination disconnected, closes the socket, does NOT
re-enqueue the in-flight batch, and returns to dialing.  Each schedule entry
is the outcome of the next I/O attempt; the run stops when the schedule is
exhausted or the queue is drained. -/
def deliverRun : Destination → List IoOutcome → Destination × List DeliveryEvent
  | d, [] => (d, [])
  | d, o :: os =>
    match d.connState with
    | .connected =>
      match d.queue with
      | [] => (d, [])
      | b :: rest =>
        match o with
        | .ok =>
          let d' := { d with queue := rest, sent := d.sent + 1 }
          let r := deliverRun d' os
          (r.1, .wrote b :: r.2)
        | .err =>
          let d' := { d with queue := rest, connState := .disconnected }
          let r := deliverRun d' os
          (r.1, .writeFailed b :: .closedSocket :: r.2)
    | _ =>
      match o with
      | .ok =>
        let d' := { d with connState := .connected }
        let r := deliverRun d' os
        (r.1, .dialed :: r.2)
      | .err =>
        let r := deliverRun d os
        (r.1, .backedOff :: r.2)

/-- The metric lines a delivery-event trace put on the socket, in order. -/
def socketTrace : List DeliveryEvent → List MetricLine
  | [] => []
  | .wrote b :: evs => b ++ socketTrace evs
  | _ :: evs => socketTrace evs

/-- Number of occurrences of an element in a list. -/
def occCount {α : Type} [DecidableEq α] (a : α) : List α → Nat
  | [] => 0
  | x :: xs => (if x = a then 1 else 0) + occCount a xs

/-! ## The inbound channel (from `main.go`) -/

/-- An operation on a bounded Go channel of batches. -/
inductive ChanOp
  | send (b : MetricBatch)
  | recv
deriving DecidableEq, Repr

/-- One step of a bounded channel's buffer: a send appends only when the
buffer is below capacity (otherwise the sender blocks and the buffer is
unchanged); a receive removes the oldest element. -/
def chanStep (cap : Nat) (q : List MetricBatch) : ChanOp → List MetricBatch
  | .send b => if q.length < cap then q ++ [b] else q
  | .recv => q.tail

/-- The buffer after a sequence of channel operations starting empty. -/
def chanRun (cap : Nat) (ops : List ChanOp) : List MetricBatch :=
  ops.foldl (chanStep cap) []

/-! ## Startup (`cmd/polymur-gateway/main.go`) -/

/-- The command-line options of `main.go` that the startup path reads
(`flag.*Var` registrations in `init`). -/
structure Options where
  queuecap : Nat
  console : Bool
  destinations : String
  metricsFlush : Nat
  distribution : String
  cert : String
  useCertAuthentication : Bool
  devMode : Bool
deriving DecidableEq, Repr

/-- The flag defaults registered in `init` of `main.go`. -/
def defaultOptions : Options :=
  { queuecap := 4096
    console := false
    destinations := ""
    metricsFlush := 0
    distribution := "broadcast"
    cert := ""
    useCertAuthentication := false
    devMode := false }

/-- Who put the readiness token on the `ready` channel. -/
inductive ReadySource
  | mainSelf
  | tcpWriter
deriving DecidableEq, Repr

/-- The startup events `main` performs, in program order. -/
inductive StartEvent
  | fatal (msg : String)
  | consoleWriterStarted
  | tcpWriterLaunched (dests dist : String) (qcap : Nat)
  | readySent (src : ReadySource)
  | readyReceived
  | statsTrackerStarted
  | keysyncStarted
  | devKeySet
  | httpListenerStarted
  | apiListenerStarted
  | graphiteFlusherStarted
  | runstatsStarted
deriving DecidableEq, Repr

/-- Whether a startup event is a fatal configuration error. -/
def StartEvent.isFatal : StartEvent → Bool
  | .fatal _ => true
  | _ => false

/-- `make(chan []*string, 32768)` at `main.go:100`: the inbound queue's
capacity is the literal 32768, whatever the options are. -/
def inboundQueueCap (_ : Options) : Nat := 32768

/-- Split a character list at every occurrence of a separator. -/
def splitCharAux (sep : Char) : List Char → List Char → List (List Char)
  | [], acc => [acc.reverse]
  | c :: cs, acc =>
    if c = sep then acc.reverse :: splitCharAux sep cs []
    else splitCharAux sep cs (c :: acc)

/-- Split a string at every occurrence of a separator character (the
semantics of Go's `strings.Split` for a one-character separator). -/
def splitField (sep : Char) (s : String) : List String :=
  (splitCharAux sep s.data []).map String.mk

/-- Modelled from the spec: a destination address must be a well-formed
`host:port` pair. -/
def validAddr (s : String) : Bool :=
  match splitField ':' s with
  | [h, p] => !h.isEmpty && !p.isEmpty
  | _ => false

/-- Modelled from the spec: `output.TCPWriter` startup-time configuration
validation (the `output` package is outside the visible tree).  An empty
destination list, an unknown distribution policy, or a malformed address is
a fatal configuration error; on success it returns the parsed destination
addresses the Pool is built from. -/
def tcpWriterStartup (o : Options) : Except String (List String) :=
  if o.destinations = "" then
    .error "no destinations configured"
  else if o.distribution ≠ "broadcast" ∧ o.distribution ≠ "hash-route" then
    .error "unknown distribution method"
  else
    match splitField ',' o.destinations with
    | [] => .error "no destinations configured"
    | a :: as =>
      if (a :: as).all validAddr then .ok (a :: as)
      else .error "malformed destination address"

/-- The events of `main` after `<-ready`: stats tracker, key sync (unless
certificate auth), HTTP listener, API listener, optional graphite flusher,
runstats listener (`main.go:122-160`). -/
def postReadyEvents (o : Options) : List StartEvent :=
  [.statsTrackerStarted]
    ++ (if o.useCertAuthentication then []
        else if o.devMode then [.devKeySet] else [.keysyncStarted])
    ++ [.httpListenerStarted, .apiListenerStarted]
    ++ (if 0 < o.metricsFlush then [.graphiteFlusherStarted] else [])
    ++ [.runstatsStarted]

/-- The startup sequence of `main` (`main.go:89-162`) as an event trace.
The cert-auth check at lines 94-96 is the only fatal check in `main`
itself; the output writer is selected at lines 104-118 (console mode sends
its own ready token at line 107, TCP mode defers to `output.TCPWriter`,
modelled by `tcpWriterStartup`); `<-ready` at line 120 precedes everything
after it. -/
def mainStartup (o : Options) : List StartEvent :=
  if o.useCertAuthentication ∧ o.cert = "" then
    [.fatal "Cannot use certificate-based authentication without supplying a cert via -cert"]
  else if o.console then
    [.consoleWriterStarted, .readySent .mainSelf, .readyReceived]
      ++ postReadyEvents o
  else
    match tcpWriterStartup o with
    | .error e => [.tcpWriterLaunched o.destinations o.distribution o.queuecap, .fatal e]
    | .ok _ =>
      [.tcpWriterLaunched o.destinations o.distribution o.queuecap,
        .readySent .tcpWriter, .readyReceived]
        ++ postReadyEvents o

/-! ## Theorems -/

/-- C1 counterexample: a non-empty Pool whose single Destination's outbound
queue is at capacity (capacity 0).  Broadcast targets it, yet after
distribution its queue is still empty and its drop counter is 1 — it did
not receive a copy of the batch, refuting the claim's unconditional "every
Destination in the Pool receives". -/
theorem broadcast_drop_on_full_counterexample :
    ([⟨"a:1", .connected, [], 0, 0, 0, 0⟩] : Pool) ≠ [] ∧
    broadcastTargets [⟨"a:1", .connected, [], 0, 0, 0, 0⟩]
      = [⟨"a:1", .connected, [], 0, 0, 0, 0⟩] ∧
    (distributeBroadcast ["m 1 1"] [⟨"a:1", .connected, [], 0, 0, 0, 0⟩]).map
        Destination.queue ≠ [[["m 1 1"]]] ∧
    (distributeBroadcast ["m 1 1"] [⟨"a:1", .connected, [], 0, 0, 0, 0⟩]).map
        Destination.dropped = [1] := by
  refine ⟨by simp, rfl, ?_, rfl⟩
  decide

/-- C1 (amended): for every non-empty Pool and every batch, Broadcast's
target set is the full Pool, and the batch reaches every member pointwise:
a Destination whose outbound queue is below capacity receives its own copy
of the batch appended to its queue, lines in the original order, while a
Destination whose queue is at capacity keeps its queue unchanged and
increments its drop counter by exactly one — also in pools mixing full and
non-full members. -/
theorem broadcast_full_pool_copies (p : Pool) (b : MetricBatch)
    (_hne : p ≠ []) :
    broadcastTargets p = p ∧
    (∀ (i : Nat) (d : Destination), p[i]? = some d →
      (d.queue.length < d.queueCap →
        (distributeBroadcast b p)[i]?.map Destination.queue
          = some (d.queue ++ [b])) ∧
      (d.queueCap ≤ d.queue.length →
        (distributeBroadcast b p)[i]?.map Destination.queue = some d.queue ∧
        (distributeBroadcast b p)[i]?.map Destination.dropped
          = some (d.dropped + 1))) := by
  refine ⟨rfl, ?_⟩
  intro i d hd
  have hmap : (distributeBroadcast b p)[i]? = some (d.enqueue b).2 := by
    simp [distributeBroadcast, List.getElem?_map, hd]
  constructor
  · intro hroom
    simp [hmap, Destination.enqueue, hroom]
  · intro hfull
    have hnlt : ¬ d.queue.length < d.queueCap := Nat.not_lt.mpr hfull
    constructor <;> simp [hmap, Destination.enqueue, hnlt]

/-- C1 witness: a mixed pool — destination `a:1` has room and receives the
batch, destination `b:2` is at capacity (0), keeps its empty queue and
counts one drop. -/
theorem broadcast_full_pool_copies_witness :
    (distributeBroadcast ["m 1 1"]
        [⟨"a:1", .connected, [], 2, 0, 0, 0⟩, ⟨"b:2", .connected, [], 0, 0, 0, 0⟩])[0]?.map
        Destination.queue = some [["m 1 1"]] ∧
    (distributeBroadcast ["m 1 1"]
        [⟨"a:1", .connected, [], 2, 0, 0, 0⟩, ⟨"b:2", .connected, [], 0, 0, 0, 0⟩])[1]?.map
        Destination.queue = some [] ∧
    (distributeBroadcast ["m 1 1"]
        [⟨"a:1", .connected, [], 2, 0, 0, 0⟩, ⟨"b:2", .connected, [], 0, 0, 0, 0⟩])[1]?.map
        Destination.dropped = some 1 :=
  ⟨((broadcast_full_pool_copies
      [⟨"a:1", .connected, [], 2, 0, 0, 0⟩, ⟨"b:2", .connected, [], 0, 0, 0, 0⟩]
      ["m 1 1"] (by decide)).2 0 ⟨"a:1", .connected, [], 2, 0, 0, 0⟩ rfl).1 (by decide),
   ((broadcast_full_pool_copies
      [⟨"a:1", .connected, [], 2, 0, 0, 0⟩, ⟨"b:2", .connected, [], 0, 0, 0, 0⟩]
      ["m 1 1"] (by decide)).2 1 ⟨"b:2", .connected, [], 0, 0, 0, 0⟩ rfl).2 (by decide) |>.1,
   ((broadcast_full_pool_copies
      [⟨"a:1", .connected, [], 2, 0, 0, 0⟩, ⟨"b:2", .connected, [], 0, 0, 0, 0⟩]
      ["m 1 1"] (by decide)).2 1 ⟨"b:2", .connected, [], 0, 0, 0, 0⟩ rfl).2 (by decide) |>.2⟩

/-- C2: Hash-Route is deterministic in the routing key and the Pool
membership: for any two views of a Pool with the same membership
(addresses) — e.g. the same Pool at two different moments, its destination
states having evolved — the same key resolves to the same single
Destination, and the target set always has exactly one element. -/
theorem hashRoute_deterministic_single (k : String) (p q : Pool)
    (hpq : p.addrs = q.addrs) (hne : p ≠ []) :
    (hashRouteTargets k p).map Destination.addr
      = (hashRouteTargets k q).map Destination.addr ∧
    (hashRouteTargets k p).length = 1 := by
  have hlen : p.length = q.length := by
    simpa [Pool.addrs] using congrArg List.length hpq
  have hplen : 0 < p.length := List.length_pos.mpr hne
  have hidx : hashRouteIdx k p < p.length := Nat.mod_lt _ hplen
  have hidxq : hashRouteIdx k q = hashRouteIdx k p := by
    simp [hashRouteIdx, hlen]
  have hidx2 : hashRouteIdx k p < q.length := hlen ▸ hidx
  rcases hp : p[hashRouteIdx k p]? with _ | dp
  · exact absurd (List.getElem?_eq_none_iff.mp hp) (Nat.not_le.mpr hidx)
  rcases hq2 : q[hashRouteIdx k p]? with _ | dq
  · exact absurd (List.getElem?_eq_none_iff.mp hq2) (Nat.not_le.mpr hidx2)
  have haddr : dp.addr = dq.addr := by
    have h1 : (p.map Destination.addr)[hashRouteIdx k p]?
        = (q.map Destination.addr)[hashRouteIdx k p]? := by
      have : p.map Destination.addr = q.map Destination.addr := hpq
      rw [this]
    rw [List.getElem?_map, List.getElem?_map, hp, hq2] at h1
    simpa using h1
  constructor
  · simp [hashRouteTargets, hidxq, hp, hq2, haddr]
  · simp [hashRouteTargets, hp]

/-- C2 witness: two views of the same two-member pool (one with evolved
queue/counter state) route the key "tenantX" identically, to a single
destination. -/
theorem hashRoute_deterministic_single_witness :
    (hashRouteTargets "tenantX"
        [⟨"a:1", .connected, [], 2, 0, 0, 0⟩, ⟨"b:2", .connected, [], 2, 0, 0, 0⟩]).map
        Destination.addr
      = (hashRouteTargets "tenantX"
        [⟨"a:1", .disconnected, [["x"]], 2, 1, 1, 1⟩, ⟨"b:2", .connected, [], 2, 5, 0, 0⟩]).map
        Destination.addr ∧
    (hashRouteTargets "tenantX"
        [⟨"a:1", .connected, [], 2, 0, 0, 0⟩, ⟨"b:2", .connected, [], 2, 0, 0, 0⟩]).length
      = 1 :=
  hashRoute_deterministic_single "tenantX" _ _ (by decide) (by decide)

/-- With a connected Destination and an all-ok schedule long enough for its
queue, the delivery task writes exactly the queued batches, in queue
order. -/
theorem deliverRun_all_ok :
    ∀ (q : List MetricBatch) (d : Destination),
      d.connState = .connected → d.queue = q →
      (deliverRun d (List.replicate q.length .ok)).2
        = q.map DeliveryEvent.wrote := by
  intro q
  induction q with
  | nil =>
    intro d hc hq
    simp [deliverRun]
  | cons b rest ih =>
    intro d hc hq
    rcases d with ⟨a, cs, qq, cap, acc, s, dr⟩
    simp only at hc hq
    subst hc; subst hq
    simp only [List.length_cons, List.replicate_succ, deliverRun, List.map_cons]
    exact congrArg _ (ih _ rfl rfl)

/-- An accepted enqueue appends the batch and preserves the connection
state. -/
theorem enqueue_accepted_queue (d e : Destination) (b : MetricBatch)
    (h : d.enqueue b = (.accepted, e)) :
    e.queue = d.queue ++ [b] ∧ e.connState = d.connState := by
  by_cases hc : d.queue.length < d.queueCap
  · simp [Destination.enqueue, hc] at h
    constructor <;> simp [← h]
  · simp [Destination.enqueue, hc] at h

/-- Concatenating the lines written by a trace of successful writes. -/
theorem socketTrace_map_wrote :
    ∀ (q : List MetricBatch),
      socketTrace (q.map DeliveryEvent.wrote) = q.flatten := by
  intro q
  induction q with
  | nil => rfl
  | cons b rest ih => simp [socketTrace, ih]

/-- C4: two batches accepted in sequence by the same Destination are written
to its socket in enqueue order — the delivery trace lists every earlier
queued batch, then the first batch, then the second, and the socket sees
their lines in exactly that order (FIFO per Destination). -/
theorem same_destination_fifo (d0 d1 d2 : Destination) (b1 b2 : MetricBatch)
    (hconn : d0.connState = .connected)
    (h1 : d0.enqueue b1 = (.accepted, d1))
    (h2 : d1.enqueue b2 = (.accepted, d2)) :
    (deliverRun d2 (List.replicate d2.queue.length .ok)).2
      = d0.queue.map DeliveryEvent.wrote
          ++ [DeliveryEvent.wrote b1, DeliveryEvent.wrote b2] ∧
    socketTrace (deliverRun d2 (List.replicate d2.queue.length .ok)).2
      = d0.queue.flatten ++ (b1 ++ b2) := by
  obtain ⟨hq1, hc1⟩ := enqueue_accepted_queue d0 d1 b1 h1
  obtain ⟨hq2, hc2⟩ := enqueue_accepted_queue d1 d2 b2 h2
  have hq : d2.queue = d0.queue ++ [b1, b2] := by
    rw [hq2, hq1, List.append_assoc]; rfl
  have hc : d2.connState = .connected := by rw [hc2, hc1, hconn]
  have hevs := deliverRun_all_ok d2.queue d2 hc rfl
  constructor
  · rw [hevs, hq]; simp
  · rw [hevs, socketTrace_map_wrote, hq]; simp

/-- C4 witness: a destination that accepted batches `["m1 1 1"]` then
`["m2 2 2"]` delivers them in that order. -/
theorem same_destination_fifo_witness :
    (deliverRun ⟨"a:1", .connected, [["m1 1 1"], ["m2 2 2"]], 2, 2, 0, 0⟩
        (List.replicate 2 .ok)).2
      = [DeliveryEvent.wrote ["m1 1 1"], DeliveryEvent.wrote ["m2 2 2"]] ∧
    socketTrace (deliverRun ⟨"a:1", .connected, [["m1 1 1"], ["m2 2 2"]], 2, 2, 0, 0⟩
        (List.replicate 2 .ok)).2
      = ["m1 1 1", "m2 2 2"] := by
  have h := same_destination_fifo
    ⟨"a:1", .connected, [], 2, 0, 0, 0⟩
    ⟨"a:1", .connected, [["m1 1 1"]], 2, 1, 0, 0⟩
    ⟨"a:1", .connected, [["m1 1 1"], ["m2 2 2"]], 2, 2, 0, 0⟩
    ["m1 1 1"] ["m2 2 2"] rfl (by decide) (by decide)
  simpa using h

/-- Delivery accounting: over any schedule, each occurrence of a batch in
the outbound queue is attempted at most once — the number of successful
writes of a batch plus the number of failed writes of it plus its
occurrences left in the final queue equals its occurrences in the initial
queue.  In particular nothing is ever re-enqueued or retried. -/
theorem deliverRun_occ (b : MetricBatch) :
    ∀ (os : List IoOutcome) (d : Destination),
      occCount (DeliveryEvent.wrote b) (deliverRun d os).2
        + occCount (DeliveryEvent.writeFailed b) (deliverRun d os).2
        + occCount b (deliverRun d os).1.queue
      = occCount b d.queue := by
  intro os
  induction os with
  | nil =>
    intro d
    simp [deliverRun, occCount]
  | cons o os ih =>
    intro d
    rcases d with ⟨a, cs, q, cap, acc, s, dr⟩
    cases cs with
    | connected =>
      cases q with
      | nil => simp [deliverRun, occCount]
      | cons b' rest =>
        cases o with
        | ok =>
          have := ih ⟨a, .connected, rest, cap, acc, s + 1, dr⟩
          simp [deliverRun, occCount] at this ⊢
          omega
        | err =>
          have := ih ⟨a, .disconnected, rest, cap, acc, s, dr⟩
          simp [deliverRun, occCount] at this ⊢
          omega
    | disconnected =>
      cases o with
      | ok =>
        have := ih ⟨a, .connected, q, cap, acc, s, dr⟩
        simp [deliverRun, occCount] at this ⊢
        omega
      | err =>
        have := ih ⟨a, .disconnected, q, cap, acc, s, dr⟩
        simp [deliverRun, occCount] at this ⊢
        omega
    | connecting =>
      cases o with
      | ok =>
        have := ih ⟨a, .connected, q, cap, acc, s, dr⟩
        simp [deliverRun, occCount] at this ⊢
        omega
      | err =>
        have := ih ⟨a, .connecting, q, cap, acc, s, dr⟩
        simp [deliverRun, occCount] at this ⊢
        omega

/-- C5: when a socket write fails on the in-flight batch, the delivery task
marks the Destination disconnected, closes the socket, and continues with
the rest of the queue — the failed batch is not re-enqueued; and over any
run, every batch is written at most as often as it was enqueued (at-most-
once per queue occurrence, hence no retry can duplicate a delivery). -/
theorem write_error_at_most_once (d : Destination) (b : MetricBatch)
    (rest : List MetricBatch) (os : List IoOutcome)
    (hconn : d.connState = .connected) (hq : d.queue = b :: rest) :
    deliverRun d (.err :: os)
      = ((deliverRun { d with queue := rest, connState := .disconnected } os).1,
         .writeFailed b :: .closedSocket ::
           (deliverRun { d with queue := rest, connState := .disconnected } os).2) ∧
    (∀ (e : Destination) (sched : List IoOutcome) (c : MetricBatch),
      occCount (DeliveryEvent.wrote c) (deliverRun e sched).2
        ≤ occCount c e.queue) := by
  constructor
  · rcases d with ⟨a, cs, q, cap, acc, s, dr⟩
    simp only at hconn hq
    subst hconn; subst hq
    rfl
  · intro e sched c
    have h := deliverRun_occ c sched e
    omega

/-- C5 witness: a write failure on the head batch disconnects the
destination, closes the socket and drops that batch from the queue, and the
subsequent reconnect delivers only the remaining batch. -/
theorem write_error_at_most_once_witness :
    deliverRun ⟨"a:1", .connected, [["m1 1 1"], ["m2 2 2"]], 2, 2, 0, 0⟩
        [.err, .ok, .ok]
      = (⟨"a:1", .connected, [], 2, 2, 1, 0⟩,
         [.writeFailed ["m1 1 1"], .closedSocket, .dialed, .wrote ["m2 2 2"]]) ∧
    occCount (DeliveryEvent.wrote ["m1 1 1"])
        (deliverRun ⟨"a:1", .connected, [["m1 1 1"], ["m2 2 2"]], 2, 2, 0, 0⟩
          [.err, .ok, .ok]).2
      ≤ 1 := by
  have h := write_error_at_most_once
    ⟨"a:1", .connected, [["m1 1 1"], ["m2 2 2"]], 2, 2, 0, 0⟩
    ["m1 1 1"] [["m2 2 2"]] [.ok, .ok] rfl rfl
  refine ⟨by rw [h.1]; decide, ?_⟩
  have h2 := h.2 ⟨"a:1", .connected, [["m1 1 1"], ["m2 2 2"]], 2, 2, 0, 0⟩
    [.err, .ok, .ok] ["m1 1 1"]
  revert h2
  simp [occCount]

/-- C6: one Destination's failure never reaches the others.  First, routing
is pointwise: replacing Destination `i` by an arbitrary state (e.g. one
whose socket is permanently unreachable) leaves the Distributor's effect on
every other Destination `j` unchanged, under either policy.  Second, the
failure is handled locally: a disconnected Destination whose every dial
attempt fails just backs off and retries — its own state is untouched and
it produces only backoff events, for schedules of any length (it retries
indefinitely and never aborts). -/
theorem destination_failure_isolated :
    (∀ (pol : Policy) (k : String) (b : MetricBatch) (p : Pool)
        (i : Nat) (a : Destination) (j : Nat), j ≠ i →
        (distribute pol k b (p.set i a))[j]? = (distribute pol k b p)[j]?) ∧
    (∀ (n : Nat) (a : Destination), a.connState = .disconnected →
        deliverRun a (List.replicate n .err) = (a, List.replicate n .backedOff)) := by
  constructor
  · intro pol k b p i a j hji
    cases pol with
    | broadcast =>
      simp [distribute, distributeBroadcast, List.getElem?_map,
        List.getElem?_set_ne (Ne.symm hji)]
    | hashRoute =>
      have hlen : (p.set i a).length = p.length := by simp
      have hidx : hashRouteIdx k (p.set i a) = hashRouteIdx k p := by
        simp [hashRouteIdx, hlen]
      by_cases ht : hashRouteIdx k p < p.length
      · have hpget : p[hashRouteIdx k p]? = some (p.get ⟨_, ht⟩) := by
          simp [List.getElem?_eq_getElem ht]
        by_cases hti : hashRouteIdx k p = i
        · have haget : (p.set i a)[hashRouteIdx k p]? = some a := by
            rw [hti]; exact List.getElem?_set_self (hti ▸ ht)
          simp only [distribute, distributeHashRoute, hidx, haget, hpget]
          rw [List.getElem?_set_ne (fun h => hji (h.symm.trans hti)),
            List.getElem?_set_ne (fun h => hji (h.symm.trans hti)),
            List.getElem?_set_ne (Ne.symm hji)]
        · have haget : (p.set i a)[hashRouteIdx k p]? = p[hashRouteIdx k p]? :=
            List.getElem?_set_ne (fun h => hti h.symm)
          simp only [distribute, distributeHashRoute, hidx, haget, hpget]
          by_cases hjt : j = hashRouteIdx k p
          · subst hjt
            rw [List.getElem?_set_self (by simpa using ht),
              List.getElem?_set_self ht]
          · rw [List.getElem?_set_ne (fun h => hjt h.symm),
              List.getElem?_set_ne (fun h => hjt h.symm),
              List.getElem?_set_ne (Ne.symm hji)]
      · have hpget : p[hashRouteIdx k p]? = none := by
          simp [List.getElem?_eq_none_iff, Nat.le_of_not_lt ht]
        have haget : (p.set i a)[hashRouteIdx k p]? = none := by
          simp [List.getElem?_eq_none_iff, Nat.le_of_not_lt ht]
        simp only [distribute, distributeHashRoute, hidx, haget, hpget]
        exact List.getElem?_set_ne (Ne.symm hji)
  · intro n
    induction n with
    | zero => intro a h; simp [deliverRun]
    | succ m ih =>
      intro a h
      rcases a with ⟨ad, cs, q, cap, acc, s, dr⟩
      simp only at h
      subst h
      simp only [List.replicate_succ, deliverRun]
      rw [ih _ rfl]

/-- C6 witness: replacing the first destination of a two-member pool by a
dead one does not change what broadcast routing does to the second
destination, and a dead destination backs off three times without touching
its own queue. -/
theorem destination_failure_isolated_witness :
    (distribute .broadcast "k" ["m 1 1"]
        ([⟨"a:1", .connected, [], 2, 0, 0, 0⟩, ⟨"b:2", .connected, [], 2, 0, 0, 0⟩].set 0
          ⟨"a:1", .disconnected, [], 2, 0, 0, 9⟩))[1]?
      = (distribute .broadcast "k" ["m 1 1"]
          [⟨"a:1", .connected, [], 2, 0, 0, 0⟩, ⟨"b:2", .connected, [], 2, 0, 0, 0⟩])[1]? ∧
    deliverRun ⟨"a:1", .disconnected, [["m 1 1"]], 2, 1, 0, 0⟩
        (List.replicate 3 .err)
      = (⟨"a:1", .disconnected, [["m 1 1"]], 2, 1, 0, 0⟩,
         List.replicate 3 .backedOff) :=
  ⟨destination_failure_isolated.1 .broadcast "k" ["m 1 1"]
      [⟨"a:1", .connected, [], 2, 0, 0, 0⟩, ⟨"b:2", .connected, [], 2, 0, 0, 0⟩] 0
      ⟨"a:1", .disconnected, [], 2, 0, 0, 9⟩ 1 (by decide),
   destination_failure_isolated.2 3 ⟨"a:1", .disconnected, [["m 1 1"]], 2, 1, 0, 0⟩ rfl⟩

/-- C3: for a Destination whose outbound queue is at (or beyond) capacity,
`Enqueue` reports `dropped-queue-full`, leaves the queue's contents
unchanged, and increments the drop counter by exactly one; and for every
Destination in every state, `Enqueue` returns (it is a total function whose
result is `accepted` or `dropped-queue-full`), the model's rendering of
"never blocks". -/
theorem enqueue_full_drops (d : Destination) (b : MetricBatch)
    (hfull : d.queueCap ≤ d.queue.length) :
    (d.enqueue b).1 = .droppedQueueFull ∧
    (d.enqueue b).2.queue = d.queue ∧
    (d.enqueue b).2.dropped = d.dropped + 1 ∧
    (∀ (e : Destination) (c : MetricBatch),
      (e.enqueue c).1 = .accepted ∨ (e.enqueue c).1 = .droppedQueueFull) := by
  have hnlt : ¬ d.queue.length < d.queueCap := Nat.not_lt.mpr hfull
  refine ⟨?_, ?_, ?_, ?_⟩
  · simp [Destination.enqueue, hnlt]
  · simp [Destination.enqueue, hnlt]
  · simp [Destination.enqueue, hnlt]
  · intro e c
    by_cases h : e.queue.length < e.queueCap <;> simp [Destination.enqueue, h]

/-- C3 witness: a queue of one batch with capacity one drops the next
enqueue, keeps its contents and counts one drop. -/
theorem enqueue_full_drops_witness :
    ((⟨"a:1", .connected, [["x"]], 1, 1, 0, 0⟩ : Destination).enqueue ["y"]).1
        = .droppedQueueFull ∧
    ((⟨"a:1", .connected, [["x"]], 1, 1, 0, 0⟩ : Destination).enqueue ["y"]).2.queue
        = [["x"]] ∧
    ((⟨"a:1", .connected, [["x"]], 1, 1, 0, 0⟩ : Destination).enqueue ["y"]).2.dropped
        = 1 :=
  ⟨(enqueue_full_drops _ ["y"] (by decide)).1,
   (enqueue_full_drops _ ["y"] (by decide)).2.1,
   (enqueue_full_drops _ ["y"] (by decide)).2.2.1⟩

/-- Every startup that reaches the post-ready phase launches the HTTP
listener. -/
theorem httpListener_mem_postReady (o : Options) :
    StartEvent.httpListenerStarted ∈ postReadyEvents o := by
  by_cases h1 : o.useCertAuthentication <;> by_cases h2 : o.devMode <;>
    by_cases h3 : 0 < o.metricsFlush <;> simp [postReadyEvents, h1, h2, h3]

/-- The post-ready phase never launches the TCP writer. -/
theorem postReady_no_tcp (o : Options) (a b : String) (c : Nat) :
    StartEvent.tcpWriterLaunched a b c ∉ postReadyEvents o := by
  by_cases h1 : o.useCertAuthentication <;> by_cases h2 : o.devMode <;>
    by_cases h3 : 0 < o.metricsFlush <;> simp [postReadyEvents, h1, h2, h3]

/-- The post-ready phase never sends on the ready channel. -/
theorem postReady_no_readySent (o : Options) (src : ReadySource) :
    StartEvent.readySent src ∉ postReadyEvents o := by
  by_cases h1 : o.useCertAuthentication <;> by_cases h2 : o.devMode <;>
    by_cases h3 : 0 < o.metricsFlush <;> simp [postReadyEvents, h1, h2, h3]

/-- A configuration with an empty destination list, an unknown distribution
policy, or a malformed address makes `output.TCPWriter` startup fail. -/
theorem tcpWriterStartup_error_of_config (o : Options)
    (herr : o.destinations = "" ∨
      (o.distribution ≠ "broadcast" ∧ o.distribution ≠ "hash-route") ∨
      ∃ a ∈ splitField ',' o.destinations, validAddr a = false) :
    ∃ e, tcpWriterStartup o = .error e := by
  by_cases h1 : o.destinations = ""
  · exact ⟨"no destinations configured", by simp [tcpWriterStartup, h1]⟩
  by_cases h2 : o.distribution ≠ "broadcast" ∧ o.distribution ≠ "hash-route"
  · exact ⟨"unknown distribution method", by simp [tcpWriterStartup, h1, h2]⟩
  rcases herr with h | h | ⟨x, hx, hvx⟩
  · exact absurd h h1
  · exact absurd h h2
  cases hsp : splitField ',' o.destinations with
  | nil => rw [hsp] at hx; cases hx
  | cons y ys =>
    refine ⟨"malformed destination address", ?_⟩
    unfold tcpWriterStartup
    rw [if_neg h1, if_neg h2, hsp]
    have hall : (y :: ys).all validAddr = false := by
      rw [hsp] at hx
      rw [List.all_eq_false]
      exact ⟨x, hx, by simp [hvx]⟩
    simp [hall]

/-- C7 counterexample: with console output enabled (`-console-out`) and an
empty destination list, the process starts normally — no fatal event occurs
and the HTTP listener is launched, so an empty destination list is not
fatal for every configuration. -/
theorem config_error_console_counterexample :
    ({ defaultOptions with console := true } : Options).destinations = "" ∧
    (mainStartup { defaultOptions with console := true }).all
        (fun e => ! e.isFatal) = true ∧
    StartEvent.httpListenerStarted
      ∈ mainStartup { defaultOptions with console := true } := by
  refine ⟨rfl, ?_, ?_⟩ <;> decide

/-- C7 (amended): when console output is disabled, every configuration with
an empty destination list, an unknown distribution policy, or a malformed
address is fatal at startup: the startup trace carries a fatal event and
the HTTP listener is never launched; moreover whenever the TCP writer's
startup succeeds, the destination list it builds the Pool from is
non-empty, so neither policy ever faces an empty Pool at runtime. -/
theorem config_errors_fatal (o : Options)
    (hc : o.console = false)
    (herr : o.destinations = "" ∨
      (o.distribution ≠ "broadcast" ∧ o.distribution ≠ "hash-route") ∨
      ∃ a ∈ splitField ',' o.destinations, validAddr a = false) :
    (∃ msg, StartEvent.fatal msg ∈ mainStartup o) ∧
    StartEvent.httpListenerStarted ∉ mainStartup o ∧
    (∀ (q : Options) (ds : List String),
        tcpWriterStartup q = .ok ds → ds ≠ []) := by
  obtain ⟨e, he⟩ := tcpWriterStartup_error_of_config o herr
  refine ⟨?_, ?_, ?_⟩
  · by_cases hca : o.useCertAuthentication ∧ o.cert = ""
    · exact ⟨"Cannot use certificate-based authentication without supplying a cert via -cert",
        by simp [mainStartup, hca]⟩
    · exact ⟨e, by simp [mainStartup, hca, hc, he]⟩
  · by_cases hca : o.useCertAuthentication ∧ o.cert = ""
    · simp [mainStartup, hca]
    · simp [mainStartup, hca, hc, he]
  · intro q ds hok
    unfold tcpWriterStartup at hok
    by_cases h1 : q.destinations = ""
    · simp [h1] at hok
    by_cases h2 : q.distribution ≠ "broadcast" ∧ q.distribution ≠ "hash-route"
    · simp [h1, h2] at hok
    rw [if_neg h1, if_neg h2] at hok
    cases hsp : splitField ',' q.destinations with
    | nil => rw [hsp] at hok; cases hok
    | cons y ys =>
      rw [hsp] at hok
      by_cases hall : (y :: ys).all validAddr
      · simp [hall] at hok
        rw [← hok]
        simp
      · simp [hall] at hok

/-- C7 witness: the default configuration (console disabled, empty
destination list) refuses to start. -/
theorem config_errors_fatal_witness :
    (∃ msg, StartEvent.fatal msg ∈ mainStartup defaultOptions) ∧
    StartEvent.httpListenerStarted ∉ mainStartup defaultOptions :=
  ⟨(config_errors_fatal defaultOptions rfl (Or.inl rfl)).1,
   (config_errors_fatal defaultOptions rfl (Or.inl rfl)).2.1⟩

/-- A bounded channel buffer that starts within capacity stays within
capacity under any operation sequence. -/
theorem chan_len_le (cap : Nat) :
    ∀ (ops : List ChanOp) (q : List MetricBatch),
      q.length ≤ cap → (ops.foldl (chanStep cap) q).length ≤ cap := by
  intro ops
  induction ops with
  | nil => intro q h; simpa using h
  | cons op ops ih =>
    intro q h
    refine ih _ ?_
    cases op with
    | send b =>
      by_cases hlt : q.length < cap
      · simp only [chanStep, if_pos hlt, List.length_append, List.length_cons,
          List.length_nil]
        omega
      · simp only [chanStep, if_neg hlt]
        exact h
    | recv =>
      have ht : (chanStep cap q .recv).length ≤ q.length := by
        simp [chanStep, List.length_tail]
      exact le_trans ht h

/-- C8 counterexample: the inbound channel's capacity is the literal 32768
from `main.go:100` under every configuration — setting `-queue-cap` to 1
(or leaving the default 4096) does not change it, so the inbound bound is
not set by configuration. -/
theorem inbound_cap_hardcoded_counterexample :
    inboundQueueCap { defaultOptions with queuecap := 1 } = 32768 ∧
    inboundQueueCap defaultOptions = 32768 ∧
    ({ defaultOptions with queuecap := 1 } : Options).queuecap = 1 ∧
    defaultOptions.queuecap = 4096 ∧
    (32768 : Nat) ≠ 1 ∧ (32768 : Nat) ≠ 4096 :=
  ⟨rfl, rfl, rfl, rfl, by decide, by decide⟩

/-- C8 (amended): the global inbound queue is a single channel whose
capacity is the hardcoded constant 32768 (the `-queue-cap` option sets the
per-destination outbound queues instead); in every run — any sequence of
sends and receives starting from the empty buffer — the number of batches
buffered in it never exceeds that capacity. -/
theorem inbound_queue_bounded (o : Options) (ops : List ChanOp) :
    inboundQueueCap o = 32768 ∧
    (chanRun (inboundQueueCap o) ops).length ≤ inboundQueueCap o :=
  ⟨rfl, chan_len_le _ ops [] (by simp)⟩

/-- C9: with `-console-out`, main launches the console writer as the
consumer of the inbound queue, never launches the TCP writer, sends the
readiness token itself (no writer ever sends one), and the `-destinations`,
`-distribution` and `-queue-cap` options have no effect on the startup
sequence. -/
theorem console_mode_no_tcp (o : Options) (d s : String) (n : Nat)
    (hc : o.console = true)
    (hcert : ¬ (o.useCertAuthentication ∧ o.cert = "")) :
    StartEvent.consoleWriterStarted ∈ mainStartup o ∧
    (∀ (a b : String) (c : Nat),
      StartEvent.tcpWriterLaunched a b c ∉ mainStartup o) ∧
    StartEvent.readySent .mainSelf ∈ mainStartup o ∧
    StartEvent.readySent .tcpWriter ∉ mainStartup o ∧
    mainStartup { o with destinations := d, distribution := s, queuecap := n }
      = mainStartup o := by
  have htrace : mainStartup o
      = [.consoleWriterStarted, .readySent .mainSelf, .readyReceived]
          ++ postReadyEvents o := by
    simp [mainStartup, hcert, hc]
  refine ⟨?_, ?_, ?_, ?_, ?_⟩
  · rw [htrace]; simp
  · intro a b c
    rw [htrace]
    intro hmem
    simp only [List.cons_append, List.nil_append, List.mem_cons] at hmem
    rcases hmem with h | h | h | h
    · cases h
    · cases h
    · cases h
    · exact postReady_no_tcp o a b c h
  · rw [htrace]; simp
  · rw [htrace]
    intro hmem
    simp only [List.cons_append, List.nil_append, List.mem_cons] at hmem
    rcases hmem with h | h | h | h
    · cases h
    · cases h
    · cases h
    · exact postReady_no_readySent o .tcpWriter h
  · simp [mainStartup, postReadyEvents, hcert, hc]

/-- C9 witness: the console configuration at concrete option values, with
the routing options replaced by arbitrary other values. -/
theorem console_mode_no_tcp_witness :
    StartEvent.consoleWriterStarted
      ∈ mainStartup { defaultOptions with console := true } ∧
    StartEvent.readySent .mainSelf
      ∈ mainStartup { defaultOptions with console := true } ∧
    mainStartup { { defaultOptions with console := true } with
        destinations := "x:9", distribution := "hash-route", queuecap := 7 }
      = mainStartup { defaultOptions with console := true } :=
  ⟨(console_mode_no_tcp { defaultOptions with console := true }
      "x:9" "hash-route" 7 rfl (by decide)).1,
   (console_mode_no_tcp { defaultOptions with console := true }
      "x:9" "hash-route" 7 rfl (by decide)).2.2.1,
   (console_mode_no_tcp { defaultOptions with console := true }
      "x:9" "hash-route" 7 rfl (by decide)).2.2.2.2⟩

/-- C10 counterexample: in console mode the HTTP listener is launched even
though the selected output writer never signals readiness — the only ready
token is sent by main itself, not by a writer. -/
theorem listener_without_writer_ready_counterexample :
    StartEvent.httpListenerStarted
      ∈ mainStartup { defaultOptions with console := true } ∧
    StartEvent.readySent .tcpWriter
      ∉ mainStartup { defaultOptions with console := true } := by
  constructor <;> decide

/-- C10 (amended): whenever a startup launches the HTTP listener, the trace
splits as `pre ++ readySent src :: readyReceived :: post` with the listener
launch strictly after the ready handshake and never before it — main blocks
on the ready channel between launching the output writer and launching the
listener — and the token's sender is the TCP writer when TCP output is
configured, main itself in console mode; so ingress never starts accepting
before a consumer of the inbound queue exists. -/
theorem listener_after_ready (o : Options)
    (h : StartEvent.httpListenerStarted ∈ mainStartup o) :
    ∃ pre post src,
      mainStartup o
        = pre ++ StartEvent.readySent src :: StartEvent.readyReceived :: post ∧
      StartEvent.httpListenerStarted ∈ post ∧
      StartEvent.httpListenerStarted ∉ pre ∧
      StartEvent.readyReceived ∉ pre ∧
      (o.console = true → src = .mainSelf) ∧
      (o.console = false → src = .tcpWriter) := by
  by_cases hca : o.useCertAuthentication ∧ o.cert = ""
  · rw [mainStartup, if_pos hca] at h
    simp at h
  by_cases hc : o.console = true
  · refine ⟨[.consoleWriterStarted], postReadyEvents o, .mainSelf,
      ?_, httpListener_mem_postReady o, by simp, by simp, fun _ => rfl, ?_⟩
    · simp [mainStartup, hca, hc]
    · intro hf; rw [hc] at hf; cases hf
  · have hc' : o.console = false := by
      cases hcc : o.console
      · rfl
      · exact absurd hcc hc
    cases hok : tcpWriterStartup o with
    | error e =>
      rw [mainStartup, if_neg hca] at h
      rw [hc'] at h
      simp only [Bool.false_eq_true, if_false] at h
      rw [hok] at h
      simp at h
    | ok ds =>
      refine ⟨[.tcpWriterLaunched o.destinations o.distribution o.queuecap],
        postReadyEvents o, .tcpWriter,
        ?_, httpListener_mem_postReady o, by simp, by simp, ?_, fun _ => rfl⟩
      · simp [mainStartup, hca, hc', hok]
      · intro hf; rw [hc'] at hf; cases hf

/-- C10 witness: a TCP-output startup with one well-formed destination
launches the listener, and the theorem locates the ready handshake before
it. -/
theorem listener_after_ready_witness :
    ∃ pre post src,
      mainStartup { defaultOptions with destinations := "h:1" }
        = pre ++ StartEvent.readySent src :: StartEvent.readyReceived :: post ∧
      StartEvent.httpListenerStarted ∈ post ∧
      StartEvent.httpListenerStarted ∉ pre ∧
      StartEvent.readyReceived ∉ pre ∧
      (({ defaultOptions with destinations := "h:1" } : Options).console = true
        → src = .mainSelf) ∧
      (({ defaultOptions with destinations := "h:1" } : Options).console = false
        → src = .tcpWriter) :=
  listener_after_ready { defaultOptions with destinations := "h:1" } (by decide)
